import Mathlib

/-!
# Verification of the py-slang core (tokenizer layout, numeric tower, CSE machine)

This file gives a shallow embedding, in Lean 4, of the parts of the
py-slang interpreter that the checked claims are about:

* the runtime `Value` union, truthiness, and the operator evaluators
  (`evaluateBinaryExpression`, `evaluateBoolExpression`,
  `evaluateUnaryExpression`, `pythonMod`, `pyCompare`);
* name lookup (`pyGetVariable`) over the environment chain;
* the built-in functions `print` and `_int`;
* host-value marshalling (`marshalToPy`, `unmarshalFromPy`, `JsClosure.call`);
* the CSE machine step loop (`pyGenerateCSEMachineStateStream`,
  `pyRunCSEMachine`, `PyEvaluate`) on the node and instruction kinds the
  claims exercise;
* the tokenizer's layout handling (NEWLINE / INDENT / DEDENT and the
  indent stack), on the alphabet of identifiers, spaces, newlines and
  comments — the only characters that interact with the indent stack.

Idealizations, stated once here and referenced by the doc comments below:

* IEEE-754 binary64 payloads (the `number` type) are idealized as exact
  rationals (`ℚ`).  All theorems in this file either avoid `number`
  payload values entirely or only depend on properties (such as the
  *type* of a result value) that are insensitive to rounding.  The
  transcendental branch of `**` on floats and complex numbers, and
  `NaN`/`Infinity` propagation, are consequently not modelled; no
  theorem below touches them.
* JavaScript `BigInt` is `ℤ`, JavaScript strings are Lean `String`s.
* Error *formatting* (snippet + caret lines) is not modelled; runtime
  errors are kept as structured data.
-/

namespace PySlang

/-- Operator-relevant subset of the tokenizer's `TokenType` enumeration. -/
inductive TokenTypeOp where
  | PLUS | MINUS | STAR | SLASH | DOUBLESLASH | PERCENT | DOUBLESTAR
  | DOUBLEEQUAL | NOTEQUAL | LESS | LESSEQUAL | GREATER | GREATEREQUAL
  | AND | OR | NOT | IS | ISNOT | INOP | NOTIN
  deriving DecidableEq, Repr

/-- Host (JavaScript) values, as far as the marshalling layer distinguishes
them: `typeof` tags bigint / number / string / boolean, the two empty values
`null` and `undefined`, and a catch-all for every other host object. -/
inductive JsValue where
  | jsBigint (i : ℤ)
  | jsNumber (q : ℚ)
  | jsString (s : String)
  | jsBool (b : Bool)
  | jsNull
  | jsUndefined
  | jsOther
  deriving DecidableEq, Repr

/-- Identifier of a registered built-in (the `builtIns` map holds exactly
`print` and `_int`). -/
inductive BuiltinId where
  | printB
  | intB
  deriving DecidableEq, Repr

/-- The interpreter's runtime `Value` union (tags as in the source:
`undefined`, `bool`, `bigint`, `number`, `string`, `complex`, `error`),
plus foreign closures (`JsClosure`) and raw built-in functions, which the
source stores untagged in the environment.  User closures (`PyClosure`)
are not constructed by any claim checked here and are omitted. -/
inductive Value where
  | undefinedV
  | bool (b : Bool)
  | bigint (i : ℤ)
  | number (q : ℚ)
  | string (s : String)
  | complex (re im : ℚ)
  | jsClosure (f : List JsValue → JsValue)
  | builtin (b : BuiltinId)
  | error (msg : String)

/-- Transcribes `typeTranslator` from the source, on the runtime tags. -/
def typeTranslator (v : Value) : String :=
  match v with
  | .bigint _ => "int"
  | .number _ => "float"
  | .bool _ => "bool"
  | .string _ => "str"
  | .complex _ _ => "complex"
  | .undefinedV => "NoneType"
  | _ => "unknown"

/-- Structured runtime errors raised through `pyHandleRuntimeError` (which
appends the error to `context.errors` and throws), plus host-level
JavaScript exceptions (raw `throw new Error(...)`, e.g. in marshalling). -/
inductive RErr where
  | unsupportedOperandType (t1 t2 op : String)
  | zeroDivision
  | unboundLocal (name : String)
  | nameError (name : String)
  | hostError (msg : String)
  deriving DecidableEq, Repr

/-- Short message of an error (diagnostic snippet/caret formatting is not
modelled). -/
def RErr.message : RErr → String
  | .unsupportedOperandType t1 t2 op =>
      "UnsupportedOperandTypeError: " ++ t1 ++ " " ++ op ++ " " ++ t2
  | .zeroDivision => "ZeroDivisionError: division by zero"
  | .unboundLocal n => "UnboundLocalError: " ++ n
  | .nameError n => "NameError: name " ++ n ++ " is not defined"
  | .hostError m => m

/-- Truncation toward zero, as JavaScript's `Math.trunc` / the implicit
truncation of `%` on numbers. -/
def ratTrunc (q : ℚ) : ℤ := if 0 ≤ q then ⌊q⌋ else ⌈q⌉

/-- JavaScript `%` on numbers: truncated remainder
`a - b * trunc(a / b)` (sign of the dividend).  Division by zero is
guarded at every call site in the source. -/
def jsFmodQ (a b : ℚ) : ℚ := a - b * ratTrunc (a / b)

/-- Transcribes `pythonMod` from the source, bigint branch: JavaScript's truncated
`%` (`Int.tmod`), corrected to the sign of the divisor. -/
def pythonModBig (a b : ℤ) : ℤ :=
  let mod := Int.tmod a b
  if (mod < 0 ∧ 0 < b) ∨ (0 < mod ∧ b < 0) then mod + b else mod

/-- Transcribes `pythonMod` from the source, number branch: JavaScript's truncated
`%`, corrected to the sign of the divisor. -/
def pythonModNum (a b : ℚ) : ℚ :=
  let mod := jsFmodQ a b
  if (mod < 0 ∧ 0 < b) ∨ (0 < mod ∧ b < 0) then mod + b else mod

/-- JavaScript `**` on numbers.  For an integer exponent this is the exact
power; for a fractional exponent the true value is transcendental and is
not modelled (returned as `0`) — no theorem below reaches that case, and
`0 ** negative` is guarded by a `ZeroDivisionError` before the call. -/
def jsPowNum (l r : ℚ) : ℚ := if r.den = 1 then l ^ r.num else 0

/-- Comparison of an integer against a float.  The source implements the
exact mathematical comparison of a bigint with a binary64 by sign/digit
analysis (`pyCompare`'s long tail with `approximateBigIntString`); on the
rational idealization that exact comparison is the order on `ℚ`. -/
def cmpIntQ (a : ℤ) (q : ℚ) : ℤ :=
  if (a : ℚ) < q then -1 else if q < (a : ℚ) then 1 else 0

/-- Transcribes `pyCompare` from the source: bigint/bigint and number/number compare
directly; bigint/number compares exactly (see `cmpIntQ`); the swapped
order negates; every other pairing (including `bool` operands) falls to
the final `return 0`. -/
def pyCompare (v1 v2 : Value) : ℤ :=
  match v1, v2 with
  | .bigint a, .bigint b => if a < b then -1 else if b < a then 1 else 0
  | .number a, .number b => if a < b then -1 else if b < a then 1 else 0
  | .bigint a, .number q => cmpIntQ a q
  | .number q, .bigint a => -(cmpIntQ a q)
  | _, _ => 0

/-- Transcribes `isFalsy` from the source: Python truthiness on the value union. -/
def isFalsy (v : Value) : Bool :=
  match v with
  | .bigint i => i = 0
  | .number q => q = 0
  | .bool b => !b
  | .string s => s = ""
  | .complex re im => re = 0 ∧ im = 0
  | .undefinedV => true
  | _ => false

/-- Transcribes `evaluateBoolExpression` from the source: `or` returns the left value
when it is truthy, otherwise the right; `and` returns the left value when
it is falsy, otherwise the right; any other operator raises
`UnsupportedOperandTypeError`. -/
def evaluateBoolExpression (op : TokenTypeOp) (left right : Value) :
    Except RErr Value :=
  if op = .OR then .ok (if !(isFalsy left) then left else right)
  else if op = .AND then .ok (if isFalsy left then left else right)
  else .error (.unsupportedOperandType (typeTranslator left) (typeTranslator right) "boolop")

/-- Transcribes `evaluateUnaryExpression` from the source. -/
def evaluateUnaryExpression (op : TokenTypeOp) (v : Value) :
    Except RErr Value :=
  match op with
  | .NOT => .ok (.bool (isFalsy v))
  | .MINUS =>
      match v with
      | .number q => .ok (.number (-q))
      | .bigint i => .ok (.bigint (-i))
      | .bool b => .ok (.bigint (if b then -1 else 0))
      | .complex re im => .ok (.complex (-re) (-im))
      | _ => .error (.unsupportedOperandType (typeTranslator v) "" "-")
  | .PLUS =>
      match v with
      | .number q => .ok (.number q)
      | .bigint i => .ok (.bigint i)
      | .complex re im => .ok (.complex re im)
      | .bool b => .ok (.bigint (if b then 1 else 0))
      | _ => .error (.unsupportedOperandType (typeTranslator v) "" "+")
  | _ => .ok (.error "Unreachable in evaluateUnaryExpression")

/-- Transcribes `PyComplexNumber.fromValue` on the payloads that can reach the complex
branch: complex stays, numbers and bigints become `x + 0j`.  Any other
payload goes through `fromString`, which for the values reachable here
(booleans, strings that are not numeric literals) throws a host
`Invalid complex string` error; numeric-literal strings are not modelled
(no claim reaches the complex branch at all). -/
def complexFromValue (v : Value) : Except RErr (ℚ × ℚ) :=
  match v with
  | .complex re im => .ok (re, im)
  | .number q => .ok (q, 0)
  | .bigint i => .ok ((i : ℚ), 0)
  | _ => .error (.hostError "Invalid complex string")

/-- Complex division, the CPython branched algorithm (exact on the
rational idealization). -/
def complexDiv (a b c d : ℚ) : Except RErr (ℚ × ℚ) :=
  let denominator := c * c + d * d
  if denominator = 0 then .error (.hostError "Division by zero in complex number.")
  else
    if |d| < |c| then
      let ratio_ := d / c
      let denom := c + d * ratio_
      .ok ((a + b * ratio_) / denom, (b - a * ratio_) / denom)
    else
      let ratio_ := c / d
      let denom := d + c * ratio_
      .ok ((a * ratio_ + b) / denom, (b * ratio_ - a) / denom)

/-- Operand of the numeric section of `evaluateBinaryExpression`, after
the `Bool → 0/1` coercion: the source tracks a payload (`leftNum`) and a
tag (`leftType`), with `bool` retagged as `'number'`. -/
inductive NumOperand where
  | num (q : ℚ)
  | big (i : ℤ)
  deriving DecidableEq, Repr

/-- The source's coercion `left.type === 'bool' ? (left.value ? 1 : 0) :
left.value` paired with the retagging `'bool' → 'number'`.  Closure and
error payloads in this position produce JavaScript `NaN` arithmetic in
the source; they are out of the modelled domain (`none`) and no claim
reaches them. -/
def coerceNumOperand (v : Value) : Option NumOperand :=
  match v with
  | .number q => some (.num q)
  | .bigint i => some (.big i)
  | .bool b => some (.num (if b then 1 else 0))
  | _ => none

/-- Evaluates `Number(x)` on a numeric operand (exact on the idealization). -/
def NumOperand.toQ : NumOperand → ℚ
  | .num q => q
  | .big i => (i : ℚ)

def NumOperand.isNum : NumOperand → Bool
  | .num _ => true
  | .big _ => false

/-- Runtime type tests used by the dispatch of `evaluateBinaryExpression`
(`left.type === 'complex'` and friends). -/
def Value.isComplexV : Value → Bool
  | .complex _ _ => true
  | _ => false

def Value.isUndefV : Value → Bool
  | .undefinedV => true
  | _ => false

def Value.isStringV : Value → Bool
  | .string _ => true
  | _ => false

/-- The source rejects, inside the complex branch, a right operand whose
type is none of complex/number/bigint/bool. -/
def Value.isComplexCompatible : Value → Bool
  | .complex _ _ | .number _ | .bigint _ | .bool _ => true
  | _ => false

/-- Transcribes `evaluateBinaryExpression` from the source.  Dispatch order: complex
operands first, then `None`, then strings, then the numeric section
(`Bool` coerced by `coerceNumOperand`), and finally the untyped
`return { type: 'error', message: 'todo error' }` fall-through for every
operator with no case (notably `is`, `is not`, `in`, `not in`).
`pyHandleRuntimeError` calls become `.error` results; the complex `**`
is transcendental and not modelled (no claim reaches it). -/
def evaluateBinaryExpression (op : TokenTypeOp) (left right : Value) :
    Except RErr Value :=
  if left.isComplexV ∨ right.isComplexV then
    if right.isComplexCompatible then complexBinOp op left right
    else .error (.unsupportedOperandType (typeTranslator left) (typeTranslator right) "binop")
  else if left.isUndefV ∨ right.isUndefV then
    match op with
    | .DOUBLEEQUAL => .ok (.bool (typeTranslator left = typeTranslator right))
    | .NOTEQUAL => .ok (.bool (typeTranslator left ≠ typeTranslator right))
    | _ => .error (.unsupportedOperandType (typeTranslator left) (typeTranslator right) "binop")
  else if left.isStringV ∨ right.isStringV then
    match left, right with
    | .string ls, .string rs =>
      (match op with
       | .PLUS => .ok (.string (ls ++ rs))
       | .DOUBLEEQUAL => .ok (.bool (ls = rs))
       | .NOTEQUAL => .ok (.bool (ls ≠ rs))
       | .LESS => .ok (.bool (ls < rs))
       | .LESSEQUAL => .ok (.bool (ls ≤ rs))
       | .GREATER => .ok (.bool (rs < ls))
       | .GREATEREQUAL => .ok (.bool (rs ≤ ls))
       | _ => .error (.unsupportedOperandType "str" "str" "binop"))
    | _, _ =>
      .error (.unsupportedOperandType (typeTranslator left) (typeTranslator right) "binop")
  else numericBinOp op left right
where
  /-- The complex sub-branch of `evaluateBinaryExpression` (`add`, `sub`,
  `mul`, `div` transcribed exactly; `pow` not modelled, see the header). -/
  complexBinOp (op : TokenTypeOp) (l r : Value) : Except RErr Value := do
    let (a, b) ← complexFromValue l
    let (c, d) ← complexFromValue r
    match op with
    | .PLUS => .ok (.complex (a + c) (b + d))
    | .MINUS => .ok (.complex (a - c) (b - d))
    | .STAR => .ok (.complex (a * c - b * d) (a * d + b * c))
    | .SLASH => do
        let (re, im) ← complexDiv a b c d
        .ok (.complex re im)
    | .DOUBLESTAR => .error (.hostError "complex pow not modelled")
    | .DOUBLEEQUAL => .ok (.bool (a = c ∧ b = d))
    | .NOTEQUAL => .ok (.bool (¬(a = c ∧ b = d)))
    | _ => .error (.unsupportedOperandType (typeTranslator l) (typeTranslator r) "binop")
  /-- The numeric (and fall-through) section of `evaluateBinaryExpression`. -/
  numericBinOp (op : TokenTypeOp) (left right : Value) : Except RErr Value :=
    match op with
    | .PLUS | .MINUS | .STAR | .SLASH | .DOUBLESLASH | .PERCENT | .DOUBLESTAR =>
      (match coerceNumOperand left, coerceNumOperand right with
       | some lN, some rN =>
         if lN.isNum ∨ rN.isNum then
           let l := lN.toQ
           let r := rN.toQ
           match op with
           | .PLUS => .ok (.number (l + r))
           | .MINUS => .ok (.number (l - r))
           | .STAR => .ok (.number (l * r))
           | .SLASH =>
               if r = 0 then .error .zeroDivision else .ok (.number (l / r))
           | .DOUBLESLASH =>
               if r = 0 then .error .zeroDivision else .ok (.number ((⌊l / r⌋ : ℤ) : ℚ))
           | .PERCENT =>
               if r = 0 then .error .zeroDivision else .ok (.number (pythonModNum l r))
           | .DOUBLESTAR =>
               if l = 0 ∧ r < 0 then .error .zeroDivision else .ok (.number (jsPowNum l r))
           | _ => .ok (.error "todo error")
         else
           match lN, rN with
           | .big l, .big r =>
             (match op with
              | .PLUS => .ok (.bigint (l + r))
              | .MINUS => .ok (.bigint (l - r))
              | .STAR => .ok (.bigint (l * r))
              | .SLASH =>
                  if r = 0 then .error .zeroDivision
                  else .ok (.number ((l : ℚ) / (r : ℚ)))
              | .DOUBLESLASH =>
                  if r = 0 then .error .zeroDivision
                  else .ok (.bigint ((l - pythonModBig l r) / r))
              | .PERCENT =>
                  if r = 0 then .error .zeroDivision
                  else .ok (.bigint (pythonModBig l r))
              | .DOUBLESTAR =>
                  if l = 0 ∧ r < 0 then .error .zeroDivision
                  else if r < 0 then .ok (.number (jsPowNum (l : ℚ) (r : ℚ)))
                  else .ok (.bigint (l ^ r.toNat))
              | _ => .ok (.error "todo error"))
           | _, _ => .ok (.error "todo error")
       | _, _ => .ok (.error "todo error"))
    | .DOUBLEEQUAL | .NOTEQUAL | .LESS | .LESSEQUAL | .GREATER | .GREATEREQUAL =>
      let cmp := pyCompare left right
      (match op with
       | .DOUBLEEQUAL => .ok (.bool (cmp = 0))
       | .NOTEQUAL => .ok (.bool (cmp ≠ 0))
       | .LESS => .ok (.bool (cmp < 0))
       | .LESSEQUAL => .ok (.bool (cmp ≤ 0))
       | .GREATER => .ok (.bool (0 < cmp))
       | .GREATEREQUAL => .ok (.bool (0 ≤ cmp))
       | _ => .ok (.error "Unreachable in evaluateBinaryExpression - comparison"))
    | _ => .ok (.error "todo error")

/-! ## Environments and name lookup -/

/-- One environment frame: `head` is the frame's own binding object,
`closureVars` is `closure.localVariables` when the frame belongs to a
function call (`env.closure`), absent on the global frame. -/
structure Frame where
  head : List (String × Value)
  closureVars : Option (List String)

/-- The chain of frames reached from the current environment by `tail`
pointers: the current frame first, the global frame last. -/
abbrev EnvChain := List Frame

/-- Tests `env.head.hasOwnProperty(name)`. -/
def Frame.headHas (f : Frame) (name : String) : Bool :=
  (f.head.lookup name).isSome

/-- The `while (currentEnv)` walk of `pyGetVariable`: first frame whose
`head` binds the name wins. -/
def chainLookup : EnvChain → String → Option Value
  | [], _ => none
  | f :: rest, name =>
    match f.head.lookup name with
    | some v => some v
    | none => chainLookup rest name

/-- The `builtIns` map: exactly `print` and `_int` are registered. -/
def builtIns : List (String × BuiltinId) := [("print", .printB), ("_int", .intB)]

/-- Transcribes `pyGetVariable` from the source.  The chain is non-empty at every call
site (the runtime always holds at least the global frame); an empty chain
is mapped to the `NameError` tail for totality.  Note that the source
throws `UnboundLocalError` / `NameError` directly (without
`pyHandleRuntimeError`), so these are not appended to `context.errors`. -/
def pyGetVariable (chain : EnvChain) (name : String) : Except RErr Value :=
  match chain with
  | [] => .error (.nameError name)
  | env :: _ =>
    if ((match env.closureVars with
        | some lv => decide (name ∈ lv)
        | none => false) && !env.headHas name) then
      .error (.unboundLocal name)
    else
      match chainLookup chain name with
      | some v => .ok v
      | none =>
        match builtIns.lookup name with
        | some b => .ok (.builtin b)
        | none => .error (.nameError name)

/-! ## String representation and built-in functions -/

/-- Computes `toPythonString` on the value kinds the claims reach.  Floats go
through `toPythonFloat` and complex numbers through the custom
`PyComplexNumber.toString`; their decimal formatting of binary64 is not
modelled (see the header), and no theorem below depends on it. -/
def toPythonString (v : Value) : String :=
  match v with
  | .bigint i => toString i
  | .number q => toString q
  | .complex re im => toString re ++ "+" ++ toString im ++ "j"
  | .bool b => if b then "True" else "False"
  | .error msg => msg
  | .string s => s
  | .undefinedV => "None"
  | .jsClosure _ => "None"
  | .builtin _ => "None"

/-- Transcribes `BuiltInFunctions.print`: appends the space-joined arguments plus a
newline to `context.output` and returns `undefined`. -/
def builtinPrint (output : String) (args : List Value) : String × Value :=
  (output ++ String.intercalate " " (args.map toPythonString) ++ "\n", .undefinedV)

/-- The `${arg.type}` tag interpolated into `_int`'s TypeError message
(the raw `type` field, not `typeTranslator`; a raw built-in function has
no `type` field, which interpolates as `undefined`). -/
def Value.typeTag : Value → String
  | .undefinedV => "undefined"
  | .bool _ => "bool"
  | .bigint _ => "bigint"
  | .number _ => "number"
  | .string _ => "string"
  | .complex _ _ => "complex"
  | .error _ => "error"
  | .jsClosure _ => "JsClosure"
  | .builtin _ => "undefined"

/-- A single-quote character (as written in the source's TypeError
message). -/
def singleQuote : String := (Char.ofNat 39).toString

/-- Transcribes `BuiltInFunctions._int` from the source: no arguments give
`BigInt(0)`; a float argument is truncated toward zero (`Math.trunc`);
a bigint argument is returned unchanged; anything else returns an error
*value* carrying a TypeError message (no exception is raised). -/
def BuiltInFunctions._int (args : List Value) : Value :=
  match args with
  | [] => .bigint 0
  | arg :: _ =>
    match arg with
    | .number q => .bigint (ratTrunc q)
    | .bigint v => .bigint v
    | _ =>
      .error ("TypeError: int() argument must be a string, a bytes-like object or a real number, not "
        ++ singleQuote ++ arg.typeTag ++ singleQuote)

/-! ## Marshalling between host and interpreter values -/

/-- Transcribes `marshalToPy` from the source: bigint/number/string/boolean map to
the corresponding interpreter values, `null`/`undefined` map to
`Undefined`, anything else throws a host error. -/
def marshalToPy (v : JsValue) : Except RErr Value :=
  match v with
  | .jsBigint i => .ok (.bigint i)
  | .jsNumber q => .ok (.number q)
  | .jsString s => .ok (.string s)
  | .jsBool b => .ok (.bool b)
  | .jsNull => .ok .undefinedV
  | .jsUndefined => .ok .undefinedV
  | .jsOther => .error (.hostError ("Marshalling of Javascript type " ++ singleQuote
      ++ "object is not implemented."))

/-- Transcribes `unmarshalFromPy` from the source: values without a string `type`
field (raw built-in functions) are passed through unchanged; bigint /
number / string / bool payloads are extracted; complex throws; every
remaining tagged value — including `Undefined` — throws
`Unmarshalling of py-slang type ... is not supported`. -/
def unmarshalFromPy (v : Value) : Except RErr JsValue :=
  match v with
  | .builtin _ => .ok .jsOther
  | .bigint i => .ok (.jsBigint i)
  | .number q => .ok (.jsNumber q)
  | .string s => .ok (.jsString s)
  | .bool b => .ok (.jsBool b)
  | .complex _ _ =>
      .error (.hostError "Passing complex number to external functions is not supported.")
  | v' =>
      .error (.hostError ("Unmarshalling of py-slang type " ++ singleQuote ++ v'.typeTag
        ++ singleQuote ++ " is not supported for external functions."))

/-- Transcribes `JsClosure.call` from the source: unmarshal every argument, apply the
host function, marshal the result back. -/
def JsClosure.call (f : List JsValue → JsValue) (args : List Value) :
    Except RErr Value := do
  let jsArgs ← args.mapM unmarshalFromPy
  marshalToPy (f jsArgs)

/-- Transcribes the *second* `marshalToPy` call of the Application
handler (`stash.push(marshalToPy(result))`, py_stdlib.d.ts:1988): its
argument is the interpreter `Value` that `JsClosure.call` has already
produced.  A `Value` is a JavaScript object, so none of `marshalToPy`'s
`typeof` cases match, it is not `null`/`undefined`, and the call always
reaches the throw with `typeof value = 'object'`. -/
def marshalToPyOnValue : Value → Except RErr Value := fun _ =>
  .error (.hostError ("Marshalling of Javascript type " ++ singleQuote
    ++ "object is not implemented."))

/-! ## The CSE machine -/

/-- Payload of a `Literal` AST node (`number | boolean | string | null`),
dispatched by `typeof` in the `'Literal'` handler. -/
inductive LitVal where
  | numL (q : ℚ)
  | boolL (b : Bool)
  | strL (s : String)
  | nullL

/-- Expression AST nodes (the node kinds the claims exercise). -/
inductive PyExpr where
  | Literal (v : LitVal)
  | BigIntLiteral (i : ℤ)
  | ComplexLit (re im : ℚ)
  | NoneLit
  | Variable (name : String)
  | Grouping (e : PyExpr)
  | Unary (op : TokenTypeOp) (right : PyExpr)
  | Binary (left : PyExpr) (op : TokenTypeOp) (right : PyExpr)
  | BoolOpE (left : PyExpr) (op : TokenTypeOp) (right : PyExpr)
  | CompareE (left : PyExpr) (op : TokenTypeOp) (right : PyExpr)
  | Call (callee : PyExpr) (args : List PyExpr)

/-- Statement AST nodes (the kinds the claims exercise).  `FileInput` is
the program root. -/
inductive PyStmt where
  | FileInput (statements : List PyStmt)
  | SimpleExpr (e : PyExpr)
  | Assign (name : String) (value : PyExpr)

/-- Machine instructions (`InstrType` values the claims exercise). -/
inductive Instr where
  | unaryOp (symbol : TokenTypeOp)
  | binaryOp (symbol : TokenTypeOp)
  | boolOp (symbol : TokenTypeOp)
  | assmt (symbol : String)
  | app (numOfArgs : Nat)
  | reset
  | endOfFunctionBody
  | pop

/-- A Control item: an AST node (statement or expression) or an
instruction. -/
inductive CtrlItem where
  | stmt (s : PyStmt)
  | expr (e : PyExpr)
  | instr (i : Instr)

/-- Machine state: Control and Stash with the top at the head of the
list, the environment chain (current frame first), and the parts of the
context the claims observe (`output`, `errors`). -/
structure MState where
  control : List CtrlItem
  stash : List Value
  envs : EnvChain
  output : String
  errors : List RErr

/-- Result of one machine step: the next state, or a thrown error
(structured runtime errors have already been appended to
`context.errors` by `pyHandleRuntimeError`; raw host errors have not). -/
def raiseRuntime (st : MState) (e : RErr) : Except (MState × RErr) MState :=
  match e with
  | .hostError _ => .error (st, e)
  | _ => .error ({ st with errors := st.errors ++ [e] }, e)

/-- Push the result of an operator evaluator, or propagate its thrown
error. -/
def pushResult (st : MState) (r : Except RErr Value) : Except (MState × RErr) MState :=
  match r with
  | .ok v => .ok { st with stash := v :: st.stash }
  | .error e => raiseRuntime st e

/-- Invoke a built-in (`callable(context, ...args)`). -/
def callBuiltin (b : BuiltinId) (st : MState) (args : List Value) : MState :=
  match b with
  | .printB =>
    let (out', res) := builtinPrint st.output args
    { st with output := out', stash := res :: st.stash }
  | .intB => { st with stash := BuiltInFunctions._int args :: st.stash }

/-- One step of the CSE machine: dispatch on the popped Control item,
transcribed from `pyCmdEvaluators`.  `st` is the state *after* the pop
(its `control` no longer holds the item).  The `PyClosure` branch of
`Application` is outside the embedded fragment (no claim builds user
closures); applying a non-callable maps to a host error, as the raw
JavaScript call would crash.  Note the foreign-closure branch's second
`marshalToPy` on the value `JsClosure.call` returned
(`stash.push(marshalToPy(result))`, py_stdlib.d.ts:1988). -/
def stepItem (item : CtrlItem) (st : MState) : Except (MState × RErr) MState :=
  match item with
  | .stmt (.FileInput statements) =>
      .ok { st with control := statements.map CtrlItem.stmt ++ st.control }
  | .stmt (.SimpleExpr e) => .ok { st with control := .expr e :: st.control }
  | .stmt (.Assign name value) =>
      .ok { st with control := .expr value :: .instr (.assmt name) :: st.control }
  | .expr (.Literal v) =>
      .ok { st with stash :=
        (match v with
         | .numL q => Value.number q
         | .boolL b => Value.bool b
         | .strL s => Value.string s
         | .nullL => Value.undefinedV) :: st.stash }
  | .expr (.BigIntLiteral i) => .ok { st with stash := .bigint i :: st.stash }
  | .expr (.ComplexLit re im) => .ok { st with stash := .complex re im :: st.stash }
  | .expr .NoneLit => .ok { st with stash := .undefinedV :: st.stash }
  | .expr (.Variable name) =>
      (match pyGetVariable st.envs name with
       | .ok v => .ok { st with stash := v :: st.stash }
       | .error e => .error (st, e))
  | .expr (.Grouping e) => .ok { st with control := .expr e :: st.control }
  | .expr (.Unary op right) =>
      .ok { st with control := .expr right :: .instr (.unaryOp op) :: st.control }
  | .expr (.Binary l op r) =>
      .ok { st with control := .expr l :: .expr r :: .instr (.binaryOp op) :: st.control }
  | .expr (.BoolOpE l op r) =>
      .ok { st with control := .expr l :: .expr r :: .instr (.boolOp op) :: st.control }
  | .expr (.CompareE l op r) =>
      .ok { st with control := .expr l :: .expr r :: .instr (.binaryOp op) :: st.control }
  | .expr (.Call callee args) =>
      .ok { st with
            control := .expr callee ::
              (args.map CtrlItem.expr ++ .instr (.app args.length) :: st.control) }
  | .instr (.unaryOp op) =>
      (match st.stash with
       | arg :: rest => pushResult { st with stash := rest } (evaluateUnaryExpression op arg)
       | [] => .ok st)
  | .instr (.binaryOp op) =>
      (match st.stash with
       | right :: left :: rest =>
           pushResult { st with stash := rest } (evaluateBinaryExpression op left right)
       | other => .ok { st with stash := other.drop 2 })
  | .instr (.boolOp op) =>
      (match st.stash with
       | right :: left :: rest =>
           pushResult { st with stash := rest } (evaluateBoolExpression op left right)
       | other => .ok { st with stash := other.drop 2 })
  | .instr (.assmt symbol) =>
      (match st.stash, st.envs with
       | v :: rest, env :: envRest =>
           .ok { st with stash := rest,
                         envs := { env with head := (symbol, v) :: env.head } :: envRest }
       | _, _ => .ok st)
  | .instr (.app numOfArgs) =>
      let args := (st.stash.take numOfArgs).reverse
      (match st.stash.drop numOfArgs with
       | callable :: stashRest =>
         let st' := { st with stash := stashRest }
         (match callable with
          | .jsClosure f =>
              pushResult st' (do
                let result ← JsClosure.call f args
                marshalToPyOnValue result)
          | .builtin b => .ok (callBuiltin b st' args)
          | _ => .error (st', .hostError "TypeError: callable is not a function"))
       | [] => .error ({ st with stash := [] }, .hostError "TypeError: callable is not a function"))
  | .instr .reset => .ok { st with envs := st.envs.drop 1 }
  | .instr .endOfFunctionBody => .ok { st with stash := .undefinedV :: st.stash }
  | .instr .pop => .ok { st with stash := st.stash.drop 1 }

/-- Outcome of running the machine loop. -/
inductive RunOutcome where
  | finished (st : MState) (steps : Nat)
  | thrown (st : MState) (e : RErr) (steps : Nat)
  | outOfFuel

/-- Transcribes `pyGenerateCSEMachineStateStream`, drained: `while (command)` pops
one item, dispatches, and increments `steps` — the `envSteps` and
`stepLimit` parameters are accepted but never consulted by the loop.  A
thrown error escapes before the `steps += 1` of its iteration.  `fuel` is
a Lean-side recursion bound only (the theorems supply enough of it). -/
def machineLoop (envSteps stepLimit : Nat) : Nat → MState → Nat → RunOutcome
  | 0, st, steps =>
      match st.control with
      | [] => .finished st steps
      | _ => .outOfFuel
  | fuel + 1, st, steps =>
      match st.control with
      | [] => .finished st steps
      | item :: rest =>
        match stepItem item { st with control := rest } with
        | .ok st' => machineLoop envSteps stepLimit fuel st' (steps + 1)
        | .error (st', e) => .thrown st' e steps

/-- Transcribes `pyRunCSEMachine`: drain the state stream, then return the top of the
stash (or `undefined` when the stash is empty). -/
def pyRunCSEMachine (fuel : Nat) (st : MState) (envSteps stepLimit : Nat) :
    RunOutcome :=
  machineLoop envSteps stepLimit fuel st 0

/-- Evaluation options (`IOptions`). -/
structure IOptions where
  isPrelude : Bool
  envSteps : Nat
  stepLimit : Nat

/-- Fresh machine state for a program: Control holds the program node,
Stash is empty, the environment stack holds the global frame (which has
no `closure` field), output and errors are empty. -/
def initialState (program : PyStmt) : MState :=
  { control := [.stmt program], stash := [], envs := [⟨[], none⟩],
    output := "", errors := [] }

/-- Transcribes `PyEvaluate` from the source: run the machine; on successful
completion return the accumulated `context.output` as a string value if
it is non-empty, otherwise the stash top (or `undefined`); a caught
error becomes an error value carrying the message.  `none` means the
Lean-side fuel ran out (never under the theorems' hypotheses). -/
def PyEvaluate (fuel : Nat) (program : PyStmt) (options : IOptions) : Option Value :=
  match pyRunCSEMachine fuel (initialState program) options.envSteps options.stepLimit with
  | .finished st _ =>
      some (if st.output ≠ "" then .string st.output
            else match st.stash.head? with
                 | some v => v
                 | none => .undefinedV)
  | .thrown _ e _ => some (.error e.message)
  | .outOfFuel => none

/-- Number of steps the drained generator executed for a program, when
it completes within `fuel`. -/
def PyEvaluateSteps (fuel : Nat) (program : PyStmt) (options : IOptions) : Option Nat :=
  match pyRunCSEMachine fuel (initialState program) options.envSteps options.stepLimit with
  | .finished _ steps => some steps
  | .thrown _ _ steps => some steps
  | .outOfFuel => none

/-! ## Tokenizer layout handling

The embedding covers the characters that can interact with the indent
stack: identifiers, digits, spaces, `#` comments and `\n` newlines.
Strings, numbers, operators and parentheses never touch the indent stack
(and `\r` only normalizes Windows line endings); sources containing them
are outside the embedded alphabet and are rejected with `unknownToken`.
Keyword classification of identifier lexemes only changes the kind of
non-layout tokens and is not modelled (`NAME` stands for all of them);
the claims below count only INDENT/DEDENT tokens. -/

/-- Token kinds relevant to layout counting. -/
inductive TokT where
  | NEWLINE | INDENT | DEDENT | NAME | ENDMARKER
  deriving DecidableEq, Repr

/-- Tokenizer failures. -/
inductive TokErr where
  | nonFourIndent
  | inconsistentIndent
  | unknownToken
  deriving DecidableEq, Repr

/-- Consume a `#` comment: advance while the peeked character is not a
newline (the newline itself is left for the main loop). -/
def skipToEol : List Char → List Char
  | [] => []
  | c :: cs => if c = '\n' then c :: cs else skipToEol cs

/-- Count and consume leading spaces (`accLeadingWhiteSpace`). -/
def countSpaces : List Char → Nat × List Char
  | ' ' :: cs =>
    let (n, r) := countSpaces cs
    (n + 1, r)
  | cs => (0, cs)

/-- The blank-line loop inside the `\n` branch: while the next character
is again a newline, consume it and re-count the leading whitespace of
the following line (note: no comment handling inside this loop, exactly
as in the source).  The inner `countSpaces` of each blank line is fused
into the space case; the loop is only entered on input that does not
start with a space (`countSpaces`/`skipToEol` have just run), so the
fusion is exact. -/
def blankLoop : List Char → Nat → Nat × List Char
  | [], acc => (acc, [])
  | ' ' :: cs, acc => blankLoop cs (acc + 1)
  | '\n' :: cs, _ => blankLoop cs 0
  | cs, acc => (acc, cs)

/-- The whitespace scan after a NEWLINE: count leading spaces, consume a
comment if one follows directly, then run the blank-line loop.  Returns
the significant-whitespace count of the first following non-blank line
and the rest of the input. -/
def afterNewline (cs : List Char) : Nat × List Char :=
  let (acc, cs1) := countSpaces cs
  let cs2 := if cs1.head? = some '#' then skipToEol cs1 else cs1
  blankLoop cs2 acc

/-- INDENT/DEDENT emission against the indent stack (top of the stack at
the head of the list).  Transcribed from the `\n` branch of `scanToken`:
a count above the top pushes one entry and emits `(count − top)/4`
INDENTs; a count below the top emits `(top − count)/4` DEDENTs, popping
one stack entry per DEDENT; a count that is not a multiple of 4 fails.
An empty stack makes both JavaScript comparisons with `undefined` false,
so nothing is emitted. -/
def handleIndent (acc : Nat) (stack : List Nat) (toks : List TokT) :
    Except TokErr (List Nat × List TokT) :=
  if acc % 4 ≠ 0 then .error .nonFourIndent
  else
    match stack.head? with
    | none => .ok (stack, toks)
    | some tos =>
      if tos < acc then
        let indents := (acc - tos) / 4
        .ok (acc :: stack, toks ++ List.replicate indents .INDENT)
      else if acc < tos then
        let indents := (tos - acc) / 4
        .ok (stack.drop indents, toks ++ List.replicate indents .DEDENT)
      else .ok (stack, toks)

/-- Test for the start of an identifier (`_`, letter; the
`isLegalUnicode` extension is outside the embedded alphabet). -/
def isNameStart (c : Char) : Bool := c = '_' || c.isAlpha

/-- Consume the remaining identifier characters. -/
def skipName : List Char → List Char
  | [] => []
  | c :: cs => if c = '_' || c.isAlphanum then skipName cs else c :: cs

/-- The scanning loop of `scanEverything` over the embedded alphabet:
`#` consumes a comment, a space is skipped, `\n` emits NEWLINE and runs
the indent logic, an identifier emits NAME, anything else is an unknown
token. -/
def scanLoop : List Char → List Nat → List TokT → Except TokErr (List Nat × List TokT)
  | [], stack, toks => .ok (stack, toks)
  | c :: cs, stack, toks =>
    if c = '#' then scanLoop (skipToEol cs) stack toks
    else if c = ' ' then scanLoop cs stack toks
    else if c = '\n' then
      match handleIndent (afterNewline cs).1 stack (toks ++ [TokT.NEWLINE]) with
      | .ok (stack', toks') => scanLoop (afterNewline cs).2 stack' toks'
      | .error e => .error e
    else if isNameStart c then scanLoop (skipName cs) stack (toks ++ [TokT.NAME])
    else .error .unknownToken
termination_by cs => cs.length
decreasing_by
  · have hskip : ∀ l : List Char, (skipToEol l).length ≤ l.length := by
      intro l
      induction l with
      | nil => exact Nat.le_refl _
      | cons a as iha =>
        simp only [skipToEol]
        split
        · simp
        · exact le_trans iha (Nat.le_succ _)
    exact Nat.lt_succ_of_le (hskip cs)
  · exact Nat.lt_succ_of_le (le_refl _)
  · have hskip : ∀ l : List Char, (skipToEol l).length ≤ l.length := by
      intro l
      induction l with
      | nil => exact Nat.le_refl _
      | cons a as iha =>
        simp only [skipToEol]
        split
        · simp
        · exact le_trans iha (Nat.le_succ _)
    have hcount : ∀ l : List Char, (countSpaces l).2.length ≤ l.length := by
      intro l
      induction l with
      | nil => simp [countSpaces]
      | cons a as iha =>
        by_cases ha : a = ' '
        · subst ha; simpa [countSpaces] using le_trans iha (Nat.le_succ _)
        · simp [countSpaces, ha]
    have hblank : ∀ l : List Char, ∀ a, (blankLoop l a).2.length ≤ l.length := by
      intro l
      induction l with
      | nil => intro a; exact Nat.le_refl _
      | cons a as iha =>
        intro acc2
        by_cases ha : a = ' '
        · subst ha
          simpa only [blankLoop] using le_trans (iha _) (Nat.le_succ _)
        · by_cases hb : a = '\n'
          · subst hb
            simpa only [blankLoop] using le_trans (iha _) (Nat.le_succ _)
          · simp [blankLoop, ha, hb]
    have hres : (afterNewline cs).2.length ≤ cs.length := by
      unfold afterNewline
      have h1 := hcount cs
      set p := countSpaces cs
      have h2 : ((if p.2.head? = some '#' then skipToEol p.2 else p.2)).length ≤ p.2.length := by
        split
        · exact hskip _
        · exact le_rfl
      exact le_trans (hblank _ _) (le_trans h2 h1)
    exact Nat.lt_succ_of_le hres
  · have hname : ∀ l : List Char, (skipName l).length ≤ l.length := by
      intro l
      induction l with
      | nil => simp [skipName]
      | cons a as iha =>
        simp only [skipName]
        split
        · exact le_trans iha (Nat.le_succ _)
        · simp
    exact Nat.lt_succ_of_le (hname cs)

/-- The EOF unravelling of `scanEverything`: pop levels and emit one
DEDENT per level until the top of the indent stack is `0`.  (On an empty
stack the source loops forever; the model stops — that state is not
reached under any theorem below.) -/
def unravel : List Nat → List TokT → List TokT
  | [], toks => toks
  | n :: rest, toks =>
    if n = 0 then toks else unravel rest (toks ++ [TokT.DEDENT])

/-- Transcribes `Tokenizer.scanEverything`: scan all characters starting from the
indent stack `[0]`, unravel the indent stack, append ENDMARKER. -/
def scanEverything (source : String) : Except TokErr (List TokT) :=
  match scanLoop source.toList [0] [] with
  | .ok (stack, toks) => .ok (unravel stack toks ++ [TokT.ENDMARKER])
  | .error e => .error e

/-- Modelled from the spec: the claim's hypothesis "for every
well-indented source".  A source is *well-indented* when every logical
line's leading-whitespace count is a multiple of four and increases by
at most one level (four spaces) over the previous logical line — i.e.
indentation is introduced one block at a time, the discipline of §4.1's
per-block `NEWLINE INDENT stmt+ DEDENT` layout.  The function mirrors
the scanner's own traversal so that the two walks visit the same
newlines. -/
def wellIndentedFrom (prev : Nat) : List Char → Bool
  | [] => true
  | c :: cs =>
    if c = '#' then wellIndentedFrom prev (skipToEol cs)
    else if c = ' ' then wellIndentedFrom prev cs
    else if c = '\n' then
      decide ((afterNewline cs).1 % 4 = 0) && decide ((afterNewline cs).1 ≤ prev + 4)
        && wellIndentedFrom (afterNewline cs).1 (afterNewline cs).2
    else if isNameStart c then wellIndentedFrom prev (skipName cs)
    else false
termination_by cs => cs.length
decreasing_by
  · have hskip : ∀ l : List Char, (skipToEol l).length ≤ l.length := by
      intro l
      induction l with
      | nil => exact Nat.le_refl _
      | cons a as iha =>
        simp only [skipToEol]
        split
        · simp
        · exact le_trans iha (Nat.le_succ _)
    exact Nat.lt_succ_of_le (hskip cs)
  · exact Nat.lt_succ_of_le (le_refl _)
  · have hskip : ∀ l : List Char, (skipToEol l).length ≤ l.length := by
      intro l
      induction l with
      | nil => exact Nat.le_refl _
      | cons a as iha =>
        simp only [skipToEol]
        split
        · simp
        · exact le_trans iha (Nat.le_succ _)
    have hcount : ∀ l : List Char, (countSpaces l).2.length ≤ l.length := by
      intro l
      induction l with
      | nil => simp [countSpaces]
      | cons a as iha =>
        by_cases ha : a = ' '
        · subst ha; simpa [countSpaces] using le_trans iha (Nat.le_succ _)
        · simp [countSpaces, ha]
    have hblank : ∀ l : List Char, ∀ a, (blankLoop l a).2.length ≤ l.length := by
      intro l
      induction l with
      | nil => intro a; exact Nat.le_refl _
      | cons a as iha =>
        intro acc2
        by_cases ha : a = ' '
        · subst ha
          simpa only [blankLoop] using le_trans (iha _) (Nat.le_succ _)
        · by_cases hb : a = '\n'
          · subst hb
            simpa only [blankLoop] using le_trans (iha _) (Nat.le_succ _)
          · simp [blankLoop, ha, hb]
    have hres : (afterNewline cs).2.length ≤ cs.length := by
      unfold afterNewline
      have h1 := hcount cs
      set p := countSpaces cs
      have h2 : ((if p.2.head? = some '#' then skipToEol p.2 else p.2)).length ≤ p.2.length := by
        split
        · exact hskip _
        · exact le_rfl
      exact le_trans (hblank _ _) (le_trans h2 h1)
    exact Nat.lt_succ_of_le hres
  · have hname : ∀ l : List Char, (skipName l).length ≤ l.length := by
      intro l
      induction l with
      | nil => simp [skipName]
      | cons a as iha =>
        simp only [skipName]
        split
        · exact le_trans iha (Nat.le_succ _)
        · simp
    exact Nat.lt_succ_of_le (hname cs)

def wellIndented (source : String) : Bool := wellIndentedFrom 0 source.toList

/-- The indent stack shapes reachable from well-indented input:
`[4k, 4(k−1), …, 4, 0]`. -/
def ladder : Nat → List Nat
  | 0 => [0]
  | k + 1 => (4 * (k + 1)) :: ladder k

/-! ## Observers used in theorem statements -/

/-- The operand domain of the numeric section of
`evaluateBinaryExpression`: bigint, number (float) or bool. -/
def Value.isNumericV : Value → Bool
  | .bigint _ | .number _ | .bool _ => true
  | _ => false

def Value.isNumberV : Value → Bool
  | .number _ => true
  | _ => false

def Value.isBigintV : Value → Bool
  | .bigint _ => true
  | _ => false

/-- A Float or Bool operand (the operands the numeric section retags as
`'number'`). -/
def Value.isNumberBoolV : Value → Bool
  | .number _ | .bool _ => true
  | _ => false

/-- The seven arithmetic operators of the numeric section. -/
def isArithOp : TokenTypeOp → Bool
  | .PLUS | .MINUS | .STAR | .SLASH | .DOUBLESLASH | .PERCENT | .DOUBLESTAR => true
  | _ => false

def Value.isErrorV : Value → Bool
  | .error _ => true
  | _ => false

def Value.errMsg : Value → String
  | .error m => m
  | _ => ""

/-- The argument types `_int` accepts (`'number'` or `'bigint'`). -/
def Value.isIntCoercible : Value → Bool
  | .number _ | .bigint _ => true
  | _ => false

/-- The guard of `pyGetVariable`'s `UnboundLocalError`:
`env.closure && env.closure.localVariables.has(name) && !env.head.hasOwnProperty(name)`. -/
def unboundLocalCondition (env : Frame) (name : String) : Bool :=
  (match env.closureVars with
   | some lv => decide (name ∈ lv)
   | none => false) && !env.headHas name

/-- Argument values `unmarshalFromPy` accepts (bigint / number / string /
bool payloads). -/
def Value.isMarshallableArg : Value → Bool
  | .bigint _ | .number _ | .string _ | .bool _ => true
  | _ => false

/-- Payload extraction for marshallable arguments (the value
`unmarshalFromPy` produces on them); `jsOther` on the rest. -/
def jsOfValue : Value → JsValue
  | .bigint i => .jsBigint i
  | .number q => .jsNumber q
  | .string s => .jsString s
  | .bool b => .jsBool b
  | _ => .jsOther

/-- The interpreter value `marshalToPy` produces on a marshallable host
value (`jsOther` is the one host value it rejects). -/
def pyOfJs : JsValue → Value
  | .jsBigint i => .bigint i
  | .jsNumber q => .number q
  | .jsString s => .string s
  | .jsBool b => .bool b
  | .jsNull => .undefinedV
  | .jsUndefined => .undefinedV
  | .jsOther => .undefinedV

/-- A concrete host function returning `null` (for closed statements). -/
def hostConstNull : List JsValue → JsValue := fun _ => .jsNull

/-- A concrete host function returning the bigint `5`. -/
def hostConstFive : List JsValue → JsValue := fun _ => .jsBigint 5

/-- The program `print(1)` (used by the C6 counterexample). -/
def printProgram : PyStmt :=
  .FileInput [.SimpleExpr (.Call (.Variable "print") [.BigIntLiteral 1])]

/-- A one-statement program whose evaluation takes three machine steps
(FileInput, SimpleExpr, Literal). -/
def threeStepProgram : PyStmt :=
  .FileInput [.SimpleExpr (.Literal (.boolL true))]

/-- Top of the stash of a finished run. -/
def RunOutcome.stashTop : RunOutcome → Option Value
  | .finished st _ => st.stash.head?
  | _ => none

/-- Net INDENT minus DEDENT count of a token list, as an integer. -/
def indentBalance (toks : List TokT) : ℤ :=
  (toks.count .INDENT : ℤ) - (toks.count .DEDENT : ℤ)

/-! ## Supporting lemmas -/

theorem skipToEol_length (cs : List Char) : (skipToEol cs).length ≤ cs.length := by
  induction cs with
  | nil => exact Nat.le_refl _
  | cons c cs ih =>
    simp only [skipToEol]
    split
    · simp
    · exact le_trans ih (Nat.le_succ _)

theorem countSpaces_length (cs : List Char) : (countSpaces cs).2.length ≤ cs.length := by
  induction cs with
  | nil => simp [countSpaces]
  | cons c cs ih =>
    match c, cs with
    | ' ', cs => simpa [countSpaces] using le_trans ih (Nat.le_succ _)
    | c, cs =>
      by_cases h : c = ' '
      · subst h; simpa [countSpaces] using le_trans ih (Nat.le_succ _)
      · simp [countSpaces, h]

theorem skipName_length (cs : List Char) : (skipName cs).length ≤ cs.length := by
  induction cs with
  | nil => simp [skipName]
  | cons c cs ih =>
    simp only [skipName]
    split
    · exact le_trans ih (Nat.le_succ _)
    · simp

theorem blankLoop_length (cs : List Char) :
    ∀ acc, (blankLoop cs acc).2.length ≤ cs.length := by
  induction cs with
  | nil => intro acc; exact Nat.le_refl _
  | cons c cs ih =>
    intro acc
    match c, cs with
    | ' ', cs => exact le_trans (ih _) (Nat.le_succ _)
    | '\n', cs => exact le_trans (ih _) (Nat.le_succ _)
    | c, cs =>
      by_cases h1 : c = ' '
      · subst h1; exact le_trans (ih _) (Nat.le_succ _)
      · by_cases h2 : c = '\n'
        · subst h2; exact le_trans (ih _) (Nat.le_succ _)
        · simp [blankLoop, h1, h2]

theorem afterNewline_length (cs : List Char) :
    (afterNewline cs).2.length ≤ cs.length := by
  unfold afterNewline
  have h1 := countSpaces_length cs
  set p := countSpaces cs
  have h2 : ((if p.2.head? = some '#' then skipToEol p.2 else p.2)).length ≤ p.2.length := by
    split
    · exact skipToEol_length _
    · exact le_rfl
  exact le_trans (blankLoop_length _ _) (le_trans h2 h1)

example : evaluateBinaryExpression .PLUS (.bool true) (.bool true) =
    .ok (.number 2) := by
  simp [evaluateBinaryExpression, evaluateBinaryExpression.numericBinOp,
    Value.isComplexV, Value.isUndefV, Value.isStringV, coerceNumOperand,
    NumOperand.isNum, NumOperand.toQ]
  norm_num

example : evaluateBinaryExpression .DOUBLESLASH (.bigint 10) (.bigint (-3)) =
    .ok (.bigint (-4)) := by rfl

example : evaluateBinaryExpression .PERCENT (.bigint 10) (.bigint (-3)) =
    .ok (.bigint (-2)) := by rfl

example : evaluateBinaryExpression .IS (.bigint 1) (.bigint 2) =
    .ok (.error "todo error") := by rfl


/-! ## C2: floor division and modulo -/

theorem neg_tmod_eq (a b : ℤ) : (-a).tmod b = -(a.tmod b) := by
  have h1 := Int.tmod_add_tdiv a b
  have h2 := Int.tmod_add_tdiv (-a) b
  rw [Int.neg_tdiv, mul_neg] at h2
  omega

theorem tmod_range (a b : ℤ) (hb : b ≠ 0) :
    -|b| < Int.tmod a b ∧ Int.tmod a b < |b| := by
  have key : ∀ (x y : ℤ), 0 < y → -y < Int.tmod x y ∧ Int.tmod x y < y := by
    intro x y hy
    rcases le_or_lt 0 x with hx | hx
    · have h1 : 0 ≤ x.tmod y := Int.tmod_nonneg y hx
      have h2 : x.tmod y < y := Int.tmod_lt_of_pos x hy
      omega
    · have hx' : 0 ≤ -x := by omega
      have h1 : 0 ≤ (-x).tmod y := Int.tmod_nonneg y hx'
      have h2 : (-x).tmod y < y := Int.tmod_lt_of_pos (-x) hy
      have h3 : x.tmod y = -((-x).tmod y) := by
        rw [← neg_tmod_eq, neg_neg]
      omega
  rcases lt_or_gt_of_ne hb with hneg | hpos
  · have hswap : a.tmod b = a.tmod (-b) := by
      rw [Int.tmod_neg]
    have := key a (-b) (by omega)
    rw [abs_of_neg hneg]
    omega
  · have := key a b hpos
    rw [abs_of_pos hpos]
    omega

theorem pythonModBig_exists_tdiv (a b : ℤ) :
    ∃ t, a - pythonModBig a b = b * t := by
  unfold pythonModBig
  have h := Int.tmod_add_tdiv a b
  dsimp only
  split
  · refine ⟨a.tdiv b - 1, ?_⟩
    rw [mul_sub, mul_one]
    omega
  · exact ⟨a.tdiv b, by omega⟩

theorem pythonModBig_identity (a b : ℤ) (hb : b ≠ 0) :
    ((a - pythonModBig a b) / b) * b + pythonModBig a b = a := by
  obtain ⟨t, ht⟩ := pythonModBig_exists_tdiv a b
  rw [ht, Int.mul_ediv_cancel_left t hb]
  have hc := mul_comm b t
  omega

theorem pythonModBig_sign (a b : ℤ) (hb : b ≠ 0) :
    pythonModBig a b = 0 ∨ (pythonModBig a b).sign = b.sign := by
  have hr := tmod_range a b hb
  unfold pythonModBig
  dsimp only
  rcases lt_or_gt_of_ne hb with hneg | hpos
  · rw [abs_of_neg hneg] at hr
    split
    · right
      have hm : Int.tmod a b + b < 0 := by omega
      rw [Int.sign_eq_neg_one_iff_neg.mpr hm, Int.sign_eq_neg_one_iff_neg.mpr hneg]
    · rename_i hcond
      rcases lt_trichotomy (Int.tmod a b) 0 with h | h | h
      · right
        rw [Int.sign_eq_neg_one_iff_neg.mpr h, Int.sign_eq_neg_one_iff_neg.mpr hneg]
      · left; omega
      · exfalso; exact hcond (Or.inr ⟨h, hneg⟩)
  · rw [abs_of_pos hpos] at hr
    split
    · right
      have hm : 0 < Int.tmod a b + b := by omega
      rw [Int.sign_eq_one_iff_pos.mpr hm, Int.sign_eq_one_iff_pos.mpr hpos]
    · rename_i hcond
      rcases lt_trichotomy (Int.tmod a b) 0 with h | h | h
      · exfalso; exact hcond (Or.inl ⟨h, hpos⟩)
      · left; omega
      · right
        rw [Int.sign_eq_one_iff_pos.mpr h, Int.sign_eq_one_iff_pos.mpr hpos]

/-- C2: for all BigInt values `a` and `b` with `b ≠ 0`, the machine's
floor division (`//`) and modulo (`%`) on bigints satisfy the identity
`a == (a // b)*b + (a % b)`, and the sign of `a % b` is either `0` or the
sign of the divisor `b`. -/
theorem C2_floor_division_identity (a b : ℤ) (hb : b ≠ 0) :
    evaluateBinaryExpression .DOUBLESLASH (.bigint a) (.bigint b)
        = .ok (.bigint ((a - pythonModBig a b) / b)) ∧
    evaluateBinaryExpression .PERCENT (.bigint a) (.bigint b)
        = .ok (.bigint (pythonModBig a b)) ∧
    ((a - pythonModBig a b) / b) * b + pythonModBig a b = a ∧
    (pythonModBig a b = 0 ∨ (pythonModBig a b).sign = b.sign) := by
  refine ⟨?_, ?_, pythonModBig_identity a b hb, pythonModBig_sign a b hb⟩
  · simp [evaluateBinaryExpression, evaluateBinaryExpression.numericBinOp,
      Value.isComplexV, Value.isUndefV, Value.isStringV, coerceNumOperand,
      NumOperand.isNum, hb]
  · simp [evaluateBinaryExpression, evaluateBinaryExpression.numericBinOp,
      Value.isComplexV, Value.isUndefV, Value.isStringV, coerceNumOperand,
      NumOperand.isNum, hb]

/-- Witness for C2 at `a = 7`, `b = -3` (`7 // -3 = -3`, `7 % -3 = -2`). -/
theorem C2_floor_division_identity_witness :
    ((-3 : ℤ) ≠ 0) ∧
    (evaluateBinaryExpression .DOUBLESLASH (.bigint 7) (.bigint (-3))
        = .ok (.bigint ((7 - pythonModBig 7 (-3)) / (-3))) ∧
     evaluateBinaryExpression .PERCENT (.bigint 7) (.bigint (-3))
        = .ok (.bigint (pythonModBig 7 (-3))) ∧
     ((7 - pythonModBig 7 (-3)) / (-3)) * (-3) + pythonModBig 7 (-3) = 7 ∧
     (pythonModBig 7 (-3) = 0 ∨ (pythonModBig 7 (-3)).sign = (-3 : ℤ).sign)) :=
  ⟨by decide, C2_floor_division_identity 7 (-3) (by decide)⟩

example : pythonModBig 7 (-3) = -2 := by decide
example : (7 - pythonModBig 7 (-3)) / (-3) = -3 := by decide

/-! ## C9: `is`, `is not`, `in`, `not in` on numeric operands -/

/-- C9: applying `is`, `is not`, `in` or `not in` to numeric operands
(BigInt, Float or Bool) makes `evaluateBinaryExpression` fall through
every operator case and return the value `{type:'error', message:'todo
error'}` normally — no runtime error is raised — and the machine's
binary-operation instruction (pushed by the `Compare` node handler)
pushes that value onto the Stash, leaving `context.errors` (and every
other state component) unchanged. -/
theorem C9_todo_error (op : TokenTypeOp)
    (hop : op = .IS ∨ op = .ISNOT ∨ op = .INOP ∨ op = .NOTIN)
    (l r : Value) (hl : l.isNumericV = true) (hr : r.isNumericV = true) :
    evaluateBinaryExpression op l r = .ok (.error "todo error") ∧
    (∀ (ctl : List CtrlItem) (rest : List Value) (envs : EnvChain)
        (out : String) (errs : List RErr),
      stepItem (.instr (.binaryOp op)) ⟨ctl, r :: l :: rest, envs, out, errs⟩ =
        .ok ⟨ctl, .error "todo error" :: rest, envs, out, errs⟩) := by
  have heval : evaluateBinaryExpression op l r = .ok (.error "todo error") := by
    cases l <;> cases r <;> simp_all [Value.isNumericV] <;>
      rcases hop with h | h | h | h <;> subst h <;>
        simp [evaluateBinaryExpression, evaluateBinaryExpression.numericBinOp,
          Value.isComplexV, Value.isUndefV, Value.isStringV, coerceNumOperand]
  refine ⟨heval, fun ctl rest envs out errs => ?_⟩
  simp [stepItem, pushResult, heval]

/-- Witness for C9 at `1 is 2`. -/
theorem C9_todo_error_witness :
    (TokenTypeOp.IS = .IS ∨ TokenTypeOp.IS = .ISNOT ∨ TokenTypeOp.IS = .INOP
      ∨ TokenTypeOp.IS = .NOTIN) ∧
    (Value.bigint 1).isNumericV = true ∧ (Value.bigint 2).isNumericV = true ∧
    (evaluateBinaryExpression .IS (.bigint 1) (.bigint 2) = .ok (.error "todo error") ∧
     stepItem (.instr (.binaryOp .IS)) ⟨[], [.bigint 2, .bigint 1], [⟨[], none⟩], "", []⟩ =
       .ok ⟨[], [.error "todo error"], [⟨[], none⟩], "", []⟩) := by
  have h := C9_todo_error .IS (Or.inl rfl) (.bigint 1) (.bigint 2) rfl rfl
  exact ⟨Or.inl rfl, rfl, rfl, h.1, h.2 [] [] [⟨[], none⟩] "" []⟩

/-! ## C10: the built-in `_int` -/

/-- C10: `_int` returns `BigInt(0)` with no arguments; truncates a Float
argument toward zero (the result `t = ratTrunc q` is the integer with
`|t| ≤ |q| < |t| + 1` on `q`'s side of zero); returns a BigInt argument
unchanged; and on any other argument type returns an error *value*
whose message starts with `TypeError` instead of raising an exception. -/
theorem C10_int_builtin :
    (BuiltInFunctions._int [] = .bigint 0) ∧
    (∀ q : ℚ, BuiltInFunctions._int [.number q] = .bigint (ratTrunc q) ∧
      |(ratTrunc q : ℚ)| ≤ |q| ∧ |q| < |(ratTrunc q : ℚ)| + 1 ∧
      0 ≤ q * (ratTrunc q : ℚ)) ∧
    (∀ i : ℤ, BuiltInFunctions._int [.bigint i] = .bigint i) ∧
    (∀ v : Value, v.isIntCoercible = false →
      BuiltInFunctions._int [v] =
        .error ("TypeError: int() argument must be a string, a bytes-like object or a real number, not "
          ++ singleQuote ++ v.typeTag ++ singleQuote)) := by
  refine ⟨rfl, fun q => ⟨rfl, ?_⟩, fun i => rfl, fun v hv => ?_⟩
  · unfold ratTrunc
    rcases le_or_lt 0 q with hq | hq
    · have h0 : (0 : ℤ) ≤ ⌊q⌋ := Int.floor_nonneg.mpr hq
      have h1 : (⌊q⌋ : ℚ) ≤ q := Int.floor_le q
      have h2 : q < ⌊q⌋ + 1 := Int.lt_floor_add_one q
      have h3 : (0 : ℚ) ≤ (⌊q⌋ : ℚ) := by exact_mod_cast h0
      rw [if_pos hq, abs_of_nonneg hq, abs_of_nonneg h3]
      exact ⟨h1, h2, mul_nonneg hq h3⟩
    · have h0 : ⌈q⌉ ≤ 0 := Int.ceil_le.mpr (by exact_mod_cast hq.le)
      have h1 : q ≤ (⌈q⌉ : ℚ) := Int.le_ceil q
      have h2 : (⌈q⌉ : ℚ) < q + 1 := by
        have := Int.ceil_lt_add_one q
        exact_mod_cast this
      have h3 : (⌈q⌉ : ℚ) ≤ 0 := by exact_mod_cast h0
      rw [if_neg (not_le.mpr hq), abs_of_neg hq, abs_of_nonpos h3]
      refine ⟨by linarith, by linarith, ?_⟩
      nlinarith [mul_nonneg (neg_nonneg.mpr hq.le) (neg_nonneg.mpr h3)]
  · cases v <;> simp_all [Value.isIntCoercible] <;> rfl

/-- Witness for C10 on a string argument. -/
theorem C10_int_builtin_witness :
    (Value.string "abc").isIntCoercible = false ∧
    BuiltInFunctions._int [.string "abc"] =
      .error ("TypeError: int() argument must be a string, a bytes-like object or a real number, not "
        ++ singleQuote ++ (Value.string "abc").typeTag ++ singleQuote) :=
  ⟨rfl, C10_int_builtin.2.2.2 (.string "abc") rfl⟩

/-! ## C1: result types of arithmetic on the numeric tower -/

/-- C1 counterexample: the claim says a Bool operand is "coerced to the
integer 0 or 1 and treated as an integer", which would make
`True + True` a BigInt `2`; the code retags Bool operands as `'number'`
(`leftType = left.type === 'bool' ? 'number' : left.type`), so
`True + True` evaluates to the Float `2` instead. -/
theorem C1_counterexample :
    evaluateBinaryExpression .PLUS (.bool true) (.bool true) = .ok (.number 2) ∧
    Value.number 2 ≠ Value.bigint 2 := by
  constructor
  · simp [evaluateBinaryExpression, evaluateBinaryExpression.numericBinOp,
      Value.isComplexV, Value.isUndefV, Value.isStringV, coerceNumOperand,
      NumOperand.isNum, NumOperand.toQ]
    norm_num
  · simp

/-- C1 (amended): in the numeric section of `evaluateBinaryExpression`
(no Complex/None/String operand), a Bool operand is coerced to 0/1 and
retagged as a *Float*, so for every arithmetic operator a successful
result is a Float whenever either operand is a Float **or a Bool**, and
a BigInt when both operands are BigInt — except that `/` of two BigInts
yields a Float, and `**` of two BigInts with a negative exponent yields
a Float. -/
theorem C1_bool_coerced_to_float (op : TokenTypeOp) (hop : isArithOp op = true) :
    (∀ a b : ℤ, ∀ v : Value,
      evaluateBinaryExpression op (.bigint a) (.bigint b) = .ok v →
        (((op = .SLASH ∨ (op = .DOUBLESTAR ∧ b < 0)) → v.isNumberV = true) ∧
         (¬(op = .SLASH ∨ (op = .DOUBLESTAR ∧ b < 0)) → v.isBigintV = true))) ∧
    (∀ l r : Value, l.isNumericV = true → r.isNumericV = true →
      (l.isNumberBoolV = true ∨ r.isNumberBoolV = true) →
      ∀ v : Value, evaluateBinaryExpression op l r = .ok v → v.isNumberV = true) := by
  constructor
  · intro a b v hev
    cases op <;> simp only [isArithOp, Bool.false_eq_true] at hop <;>
      simp only [evaluateBinaryExpression, evaluateBinaryExpression.numericBinOp,
        Value.isComplexV, Value.isUndefV, Value.isStringV, coerceNumOperand,
        NumOperand.isNum, NumOperand.toQ, Bool.false_eq_true, or_self,
        if_false, reduceCtorEq] at hev
    case PLUS =>
      cases hev
      exact ⟨fun hcond => absurd hcond (by simp), fun _ => rfl⟩
    case MINUS =>
      cases hev
      exact ⟨fun hcond => absurd hcond (by simp), fun _ => rfl⟩
    case STAR =>
      cases hev
      exact ⟨fun hcond => absurd hcond (by simp), fun _ => rfl⟩
    case SLASH =>
      split_ifs at hev <;> cases hev <;>
        exact ⟨fun _ => rfl, fun hcond => absurd (Or.inl rfl) hcond⟩
    case DOUBLESLASH =>
      split_ifs at hev <;> cases hev <;>
        exact ⟨fun hcond => absurd hcond (by simp), fun _ => rfl⟩
    case PERCENT =>
      split_ifs at hev <;> cases hev <;>
        exact ⟨fun hcond => absurd hcond (by simp), fun _ => rfl⟩
    case DOUBLESTAR =>
      split_ifs at hev with h1 h2 <;> cases hev
      all_goals
        first
        | exact ⟨fun _ => rfl,
            fun hcond => absurd (Or.inr ⟨rfl, by assumption⟩) hcond⟩
        | (refine ⟨fun hcond => ?_, fun _ => rfl⟩
           rcases hcond with h | ⟨_, hblt⟩
           · exact absurd h (by simp)
           · exact absurd hblt (by assumption))
  · intro l r hl hr hnb v hev
    cases l <;> cases r <;>
      simp_all only [Value.isNumericV, Value.isNumberBoolV, Bool.false_eq_true,
        or_self, or_true, true_or] <;>
      cases op <;> simp only [isArithOp, Bool.false_eq_true] at hop <;>
      simp only [evaluateBinaryExpression, evaluateBinaryExpression.numericBinOp,
        Value.isComplexV, Value.isUndefV, Value.isStringV, coerceNumOperand,
        NumOperand.isNum, NumOperand.toQ, Bool.false_eq_true, or_self, or_true,
        true_or, if_true, if_false, reduceCtorEq] at hev <;>
      first
      | (split_ifs at hev <;> (try cases hev) <;> simp [Value.isNumberV])
      | (cases hev; simp [Value.isNumberV])

/-- Witness for C1 at `2 * 3` (both BigInt, result BigInt) and at
`True * 3` (Bool operand, result Float). -/
theorem C1_bool_coerced_to_float_witness :
    isArithOp .STAR = true ∧
    (Value.bigint 6).isBigintV = true ∧
    evaluateBinaryExpression .STAR (.bigint 2) (.bigint 3) = .ok (.bigint 6) ∧
    (Value.bool true).isNumericV = true ∧ (Value.bigint 3).isNumericV = true ∧
    (Value.bool true).isNumberBoolV = true ∧
    evaluateBinaryExpression .STAR (.bool true) (.bigint 3) = .ok (.number 3) ∧
    (Value.number 3).isNumberV = true := by
  have heq1 : evaluateBinaryExpression .STAR (.bigint 2) (.bigint 3) = .ok (.bigint 6) := by
    simp [evaluateBinaryExpression, evaluateBinaryExpression.numericBinOp,
      Value.isComplexV, Value.isUndefV, Value.isStringV, coerceNumOperand,
      NumOperand.isNum, NumOperand.toQ]
  have heq2 : evaluateBinaryExpression .STAR (.bool true) (.bigint 3) = .ok (.number 3) := by
    simp [evaluateBinaryExpression, evaluateBinaryExpression.numericBinOp,
      Value.isComplexV, Value.isUndefV, Value.isStringV, coerceNumOperand,
      NumOperand.isNum, NumOperand.toQ]
  refine ⟨rfl, ?_, heq1, rfl, rfl, rfl, heq2, ?_⟩
  · exact ((C1_bool_coerced_to_float .STAR rfl).1 2 3 (.bigint 6) heq1).2 (by simp)
  · exact (C1_bool_coerced_to_float .STAR rfl).2 (.bool true) (.bigint 3) rfl rfl
      (Or.inl rfl) (.number 3) heq2

/-! ## C3: `and` / `or` at the machine level -/

/-- C3: for an `and`/`or` expression the machine pushes both operands
onto the Control ahead of the BoolOp instruction (left on top, so the
left operand is evaluated first and both operands are evaluated); the
BoolOp instruction then pops right, then left, and pushes `left` when
(`or` and left truthy) or (`and` and left falsy), and `right`
otherwise, leaving every other state component unchanged. -/
theorem C3_boolop_machine (l r : PyExpr) (op : TokenTypeOp)
    (hop : op = .AND ∨ op = .OR) :
    (∀ (ctl : List CtrlItem) (stash : List Value) (envs : EnvChain)
        (out : String) (errs : List RErr),
      stepItem (.expr (.BoolOpE l op r)) ⟨ctl, stash, envs, out, errs⟩ =
        .ok ⟨.expr l :: .expr r :: .instr (.boolOp op) :: ctl, stash, envs, out, errs⟩) ∧
    (∀ (vl vr : Value) (rest : List Value) (ctl : List CtrlItem)
        (envs : EnvChain) (out : String) (errs : List RErr),
      stepItem (.instr (.boolOp op)) ⟨ctl, vr :: vl :: rest, envs, out, errs⟩ =
        .ok ⟨ctl,
          (if (op = .OR && !(isFalsy vl)) || (op = .AND && isFalsy vl)
           then vl else vr) :: rest, envs, out, errs⟩) := by
  refine ⟨fun ctl stash envs out errs => rfl,
          fun vl vr rest ctl envs out errs => ?_⟩
  rcases hop with h | h <;> subst h <;>
    by_cases hf : isFalsy vl <;>
      simp [stepItem, pushResult, evaluateBoolExpression, hf]

/-- Witness for C3 with `op = and`, `False and True`. -/
theorem C3_boolop_machine_witness :
    (TokenTypeOp.AND = .AND ∨ TokenTypeOp.AND = .OR) ∧
    stepItem (.expr (.BoolOpE (.Literal (.boolL false)) .AND (.Literal (.boolL true))))
        ⟨[], [], [⟨[], none⟩], "", []⟩ =
      .ok ⟨[.expr (.Literal (.boolL false)), .expr (.Literal (.boolL true)),
            .instr (.boolOp .AND)], [], [⟨[], none⟩], "", []⟩ ∧
    stepItem (.instr (.boolOp .AND)) ⟨[], [.bool true, .bool false], [⟨[], none⟩], "", []⟩ =
      .ok ⟨[], [(if (TokenTypeOp.AND = .OR && !(isFalsy (.bool false)))
                    || (TokenTypeOp.AND = .AND && isFalsy (.bool false))
                 then Value.bool false else Value.bool true)], [⟨[], none⟩], "", []⟩ := by
  have h := C3_boolop_machine (.Literal (.boolL false)) (.Literal (.boolL true))
      .AND (Or.inl rfl)
  exact ⟨Or.inl rfl, h.1 [] [] [⟨[], none⟩] "" [],
         h.2 (.bool false) (.bool true) [] [] [⟨[], none⟩] "" []⟩

/-! ## C4: variable resolution -/

/-- C4: evaluating a `Variable` fails with `UnboundLocalError` when the
current frame's closure records the name in `localVariables` but the
frame's head does not bind it; otherwise the name resolves by walking
`head`, then `tail` pointers up the chain, then the built-ins map, and
`NameError` is raised exactly when no frame and no built-in binds the
name. -/
theorem C4_variable_resolution (env : Frame) (rest : EnvChain) (name : String) :
    (unboundLocalCondition env name = true →
      pyGetVariable (env :: rest) name = .error (.unboundLocal name)) ∧
    (unboundLocalCondition env name = false →
      ∀ v : Value, chainLookup (env :: rest) name = some v →
        pyGetVariable (env :: rest) name = .ok v) ∧
    (unboundLocalCondition env name = false →
      chainLookup (env :: rest) name = none →
      ∀ b : BuiltinId, builtIns.lookup name = some b →
        pyGetVariable (env :: rest) name = .ok (.builtin b)) ∧
    (pyGetVariable (env :: rest) name = .error (.nameError name) ↔
      (unboundLocalCondition env name = false ∧
       chainLookup (env :: rest) name = none ∧
       builtIns.lookup name = none)) := by
  refine ⟨fun hu => ?_, fun hu v hv => ?_, fun hu hln b hb => ?_, ?_⟩
  · simp [pyGetVariable, unboundLocalCondition] at hu ⊢
    simp [hu]
  · simp only [pyGetVariable, unboundLocalCondition] at hu ⊢
    rw [if_neg (by simp_all), hv]
  · simp only [pyGetVariable, unboundLocalCondition] at hu ⊢
    rw [if_neg (by simp_all), hln, hb]
  · constructor
    · intro h
      simp only [pyGetVariable] at h
      split_ifs at h with hcond
      · simp at h
      · refine ⟨by simpa [unboundLocalCondition] using hcond, ?_⟩
        rcases hlk : chainLookup (env :: rest) name with _ | v
        · rcases hbt : builtIns.lookup name with _ | b
          · exact ⟨rfl, rfl⟩
          · rw [hlk, hbt] at h; simp at h
        · rw [hlk] at h; simp at h
    · rintro ⟨hu, hln, hbt⟩
      simp only [pyGetVariable, unboundLocalCondition] at hu ⊢
      rw [if_neg (by simp_all), hln, hbt]

/-- Witness for C4: a frame whose closure records `x` as local while the
head does not bind it. -/
theorem C4_variable_resolution_witness :
    unboundLocalCondition ⟨[], some ["x"]⟩ "x" = true ∧
    pyGetVariable [⟨[], some ["x"]⟩] "x" = .error (.unboundLocal "x") :=
  ⟨rfl, (C4_variable_resolution ⟨[], some ["x"]⟩ [] "x").1 rfl⟩

/-! ## C5: foreign (host) closure application -/

theorem marshalToPy_ok (v : JsValue) (hv : v ≠ .jsOther) :
    marshalToPy v = .ok (pyOfJs v) := by
  cases v <;> simp_all [marshalToPy, pyOfJs]

theorem unmarshalFromPy_ok (a : Value) (ha : a.isMarshallableArg = true) :
    unmarshalFromPy a = .ok (jsOfValue a) := by
  cases a <;> simp_all [Value.isMarshallableArg] <;> rfl

theorem mapM_unmarshal_ok (args : List Value)
    (h : ∀ a ∈ args, a.isMarshallableArg = true) :
    args.mapM unmarshalFromPy = .ok (args.map jsOfValue) := by
  induction args with
  | nil => rfl
  | cons a rest ih =>
    rw [List.mapM_cons, unmarshalFromPy_ok a (h a (by simp)),
      ih (fun x hx => h x (by simp [hx]))]
    rfl

/-- C5: the claim — with spec §6.2's marshalling table and
`JsClosure.call`'s own documented protocol (unmarshal the arguments,
invoke the host function, marshal the return value back into a py-slang
value) — says a foreign application pushes the resulting interpreter
value onto the Stash.  `JsClosure.call` does produce exactly that
interpreter value, but the Application handler then feeds it through
`marshalToPy` a *second* time (`stash.push(marshalToPy(result))`,
py_stdlib.d.ts:1988); a `Value` is a JavaScript object, so the
re-marshal throws `Marshalling of Javascript type 'object is not
implemented.` on every successful foreign call, and the result is never
pushed — the code contradicts its own marshalling protocol.  (Arguments
of type Undefined would additionally throw at unmarshal time, a second
divergence from the claim's `Undefined ↔ null` row.) -/
theorem C5_foreign_call_never_pushed (f : List JsValue → JsValue) (args : List Value)
    (hargs : ∀ a ∈ args, a.isMarshallableArg = true)
    (hres : f (args.map jsOfValue) ≠ .jsOther) :
    JsClosure.call f args = .ok (pyOfJs (f (args.map jsOfValue))) ∧
    (∀ (ctl : List CtrlItem) (rest : List Value) (envs : EnvChain)
        (out : String) (errs : List RErr),
      stepItem (.instr (.app args.length))
          ⟨ctl, args.reverse ++ (.jsClosure f :: rest), envs, out, errs⟩ =
        .error (⟨ctl, rest, envs, out, errs⟩,
          .hostError ("Marshalling of Javascript type " ++ singleQuote
            ++ "object is not implemented."))) := by
  have hcall : JsClosure.call f args = .ok (pyOfJs (f (args.map jsOfValue))) := by
    rw [JsClosure.call, mapM_unmarshal_ok args hargs]
    have hm := marshalToPy_ok _ hres
    simp [hm, bind, Except.bind]
  refine ⟨hcall, fun ctl rest envs out errs => ?_⟩
  have htake : (args.reverse ++ (.jsClosure f :: rest)).take args.length = args.reverse := by
    have := List.take_left args.reverse (Value.jsClosure f :: rest)
    rwa [List.length_reverse] at this
  have hdrop : (args.reverse ++ (.jsClosure f :: rest)).drop args.length =
      .jsClosure f :: rest := by
    have := List.drop_left args.reverse (Value.jsClosure f :: rest)
    rwa [List.length_reverse] at this
  simp only [stepItem, htake, hdrop, List.reverse_reverse]
  rw [hcall]
  simp [pushResult, raiseRuntime, marshalToPyOnValue, bind, Except.bind]

/-- Witness for C5: a host function returning the bigint `5`, applied
to the single argument `1`: `JsClosure.call` yields the interpreter
value `BigInt 5`, yet the machine throws the re-marshal error instead
of pushing it. -/
theorem C5_foreign_call_never_pushed_witness :
    (∀ a ∈ [Value.bigint 1], a.isMarshallableArg = true) ∧
    hostConstFive ([Value.bigint 1].map jsOfValue) ≠ .jsOther ∧
    JsClosure.call hostConstFive [.bigint 1] =
      .ok (pyOfJs (hostConstFive ([Value.bigint 1].map jsOfValue))) ∧
    stepItem (.instr (.app 1)) ⟨[], [.bigint 1, .jsClosure hostConstFive], [⟨[], none⟩], "", []⟩ =
      .error (⟨[], [], [⟨[], none⟩], "", []⟩,
        .hostError ("Marshalling of Javascript type " ++ singleQuote
          ++ "object is not implemented.")) := by
  have h1 : ∀ a ∈ [Value.bigint 1], a.isMarshallableArg = true := by
    intro a ha
    rw [List.mem_singleton] at ha
    subst ha
    rfl
  have h2 : hostConstFive ([Value.bigint 1].map jsOfValue) ≠ .jsOther := by
    simp [hostConstFive]
  have h := C5_foreign_call_never_pushed hostConstFive [.bigint 1] h1 h2
  exact ⟨h1, h2, h.1, h.2 [] [] [⟨[], none⟩] "" []⟩

/-! ## C6: the chunk result -/

/-- C6 counterexample: for `print(1)` the accumulated output is
non-empty, so `PyEvaluate` returns `{type:'string', value: output}` (the
`context.output ? ... : result` branch) — not the top-of-stash value,
which is `Undefined` here.  The chunk result sent through the conductor
is therefore the output string, not the string representation of the
top of the Stash. -/
theorem C6_counterexample :
    PyEvaluate 12 printProgram ⟨false, 100000, 100000⟩ = some (.string "1\n") ∧
    (pyRunCSEMachine 12 (initialState printProgram) 100000 100000).stashTop =
      some .undefinedV ∧
    Value.string "1\n" ≠ Value.undefinedV := by
  refine ⟨rfl, rfl, by simp⟩

/-- C6 (amended): when the machine completes a program, `PyEvaluate`
returns the accumulated `context.output` as a String value whenever it
is non-empty, and the top of the Stash (or `Undefined` on an empty
Stash) only when no output was produced; a thrown error is returned as
an Error value carrying the error's message. -/
theorem C6_result_selection (fuel : Nat) (program : PyStmt) (options : IOptions) :
    (∀ st steps,
      pyRunCSEMachine fuel (initialState program) options.envSteps options.stepLimit =
          .finished st steps →
        (st.output = "" → PyEvaluate fuel program options = some (st.stash.headD .undefinedV)) ∧
        (st.output ≠ "" → PyEvaluate fuel program options = some (.string st.output))) ∧
    (∀ st e steps,
      pyRunCSEMachine fuel (initialState program) options.envSteps options.stepLimit =
          .thrown st e steps →
        PyEvaluate fuel program options = some (.error e.message)) := by
  constructor
  · intro st steps hrun
    constructor
    · intro hout
      simp only [PyEvaluate, hrun, hout]
      cases st.stash <;> simp
    · intro hout
      simp [PyEvaluate, hrun, hout]
  · intro st e steps hrun
    simp [PyEvaluate, hrun]

/-- Witness for C6 on `print(1)`. -/
theorem C6_result_selection_witness :
    pyRunCSEMachine 12 (initialState printProgram) 100000 100000 =
      .finished ⟨[], [.undefinedV], [⟨[], none⟩], "1\n", []⟩ 6 ∧
    ("1\n" : String) ≠ "" ∧
    PyEvaluate 12 printProgram ⟨false, 100000, 100000⟩ = some (.string "1\n") := by
  have hrun : pyRunCSEMachine 12 (initialState printProgram) 100000 100000 =
      .finished ⟨[], [.undefinedV], [⟨[], none⟩], "1\n", []⟩ 6 := rfl
  refine ⟨hrun, by simp, ?_⟩
  exact ((C6_result_selection 12 printProgram ⟨false, 100000, 100000⟩).1
    ⟨[], [.undefinedV], [⟨[], none⟩], "1\n", []⟩ 6 hrun).2 (by simp)

/-! ## C8: the step limit -/

theorem machineLoop_params_irrelevant (a b a' b' : Nat) :
    ∀ fuel st steps, machineLoop a b fuel st steps = machineLoop a' b' fuel st steps := by
  intro fuel
  induction fuel with
  | zero => intro st steps; rfl
  | succ n ih =>
    intro st steps
    rcases hc : st.control with _ | ⟨item, rest⟩ <;>
      simp only [machineLoop, hc]
    rcases hs : stepItem item { st with control := rest } with p | st' <;>
      simp only [hs]
    exact ih st' (steps + 1)

/-- C8: the claim says `envSteps`/`stepLimit` bound the number of steps
of the main loop, and the loop's own documentation calls `stepLimit`
the "Maximum number of steps to execute" — but
`pyGenerateCSEMachineStateStream` never consults either option, and
`pyRunCSEMachine` drains the generator to completion: with
`envSteps = stepLimit = 1` the three-statement-step program still
executes 3 steps, and the run is identical for any option values. -/
theorem C8_step_limit_not_enforced :
    PyEvaluateSteps 8 threeStepProgram ⟨false, 1, 1⟩ = some 3 ∧
    3 > 1 ∧
    (∀ envSteps stepLimit envSteps' stepLimit' : Nat, ∀ fuel : Nat, ∀ st : MState,
      pyRunCSEMachine fuel st envSteps stepLimit =
        pyRunCSEMachine fuel st envSteps' stepLimit') := by
  exact ⟨rfl, by omega,
    fun a b a' b' fuel st => machineLoop_params_irrelevant a b a' b' fuel st 0⟩

/-! ## C7: INDENT/DEDENT balance -/

theorem ladder_head (k : Nat) : (ladder k).head? = some (4 * k) := by
  cases k <;> simp [ladder]

theorem ladder_drop : ∀ (i k : Nat), i ≤ k → (ladder k).drop i = ladder (k - i) := by
  intro i
  induction i with
  | zero => intro k _; rfl
  | succ i ih =>
    intro k hk
    match k, hk with
    | m + 1, hk =>
      have : (ladder (m + 1)).drop (i + 1) = (ladder m).drop i := by
        simp [ladder]
      rw [this, ih m (by omega)]
      congr 1
      omega

theorem indentBalance_append_indent (toks : List TokT) (m : Nat) :
    indentBalance (toks ++ List.replicate m .INDENT) = indentBalance toks + m := by
  simp [indentBalance, List.count_append, List.count_replicate]
  omega

theorem indentBalance_append_dedent (toks : List TokT) (m : Nat) :
    indentBalance (toks ++ List.replicate m .DEDENT) = indentBalance toks - m := by
  simp [indentBalance, List.count_append, List.count_replicate]
  omega

theorem indentBalance_append_newline (toks : List TokT) :
    indentBalance (toks ++ [TokT.NEWLINE]) = indentBalance toks := by
  simp [indentBalance, List.count_append]

theorem handleIndent_ladder (acc k : Nat) (toks : List TokT)
    (h4 : acc % 4 = 0) (hle : acc ≤ 4 * k + 4) :
    ∃ toks₂, handleIndent acc (ladder k) toks = .ok (ladder (acc / 4), toks₂) ∧
      indentBalance toks₂ = indentBalance toks + ((acc / 4 : ℕ) : ℤ) - k := by
  obtain ⟨j, rfl⟩ : ∃ j, acc = 4 * j := ⟨acc / 4, by omega⟩
  have hj4 : 4 * j / 4 = j := by omega
  rw [hj4]
  unfold handleIndent
  rw [if_neg (by omega), ladder_head]
  dsimp only
  by_cases hgt : 4 * k < 4 * j
  · have hj : j = k + 1 := by omega
    subst hj
    have hone : (4 * (k + 1) - 4 * k) / 4 = 1 := by omega
    rw [if_pos hgt, hone]
    refine ⟨toks ++ List.replicate 1 .INDENT, ?_, ?_⟩
    · rw [ladder]
    · rw [indentBalance_append_indent]
      omega
  · by_cases hlt : 4 * j < 4 * k
    · have hind : (4 * k - 4 * j) / 4 = k - j := by omega
      rw [if_neg hgt, if_pos hlt, hind, ladder_drop _ _ (by omega)]
      have hkj : k - (k - j) = j := by omega
      rw [hkj]
      refine ⟨toks ++ List.replicate (k - j) .DEDENT, rfl, ?_⟩
      rw [indentBalance_append_dedent, Nat.cast_sub (by omega)]
      omega
    · have hjk : j = k := by omega
      subst hjk
      rw [if_neg hgt, if_neg hlt]
      exact ⟨toks, rfl, by omega⟩

theorem unravel_ladder : ∀ (k : Nat) (toks : List TokT),
    unravel (ladder k) toks = toks ++ List.replicate k .DEDENT := by
  intro k
  induction k with
  | zero => intro toks; simp [ladder, unravel]
  | succ m ih =>
    intro toks
    rw [ladder, unravel, if_neg (by omega), ih]
    simp [List.replicate_succ]

theorem scanLoop_balance :
    ∀ (n : Nat) (cs : List Char), cs.length ≤ n →
    ∀ (k : Nat) (toks : List TokT) (stack' : List Nat) (toks' : List TokT),
      wellIndentedFrom (4 * k) cs = true →
      scanLoop cs (ladder k) toks = .ok (stack', toks') →
      ∃ k', stack' = ladder k' ∧
        indentBalance toks' = indentBalance toks + k' - k := by
  intro n
  induction n with
  | zero =>
    intro cs hlen k toks stack' toks' hw hs
    have hnil : cs = [] := List.length_eq_zero.mp (Nat.le_zero.mp hlen)
    subst hnil
    simp only [scanLoop, Except.ok.injEq, Prod.mk.injEq] at hs
    refine ⟨k, hs.1.symm, ?_⟩
    rw [← hs.2]
    omega
  | succ n ih =>
    intro cs hlen k toks stack' toks' hw hs
    match cs, hlen with
    | [], _ =>
      simp only [scanLoop, Except.ok.injEq, Prod.mk.injEq] at hs
      refine ⟨k, hs.1.symm, ?_⟩
      rw [← hs.2]
      omega
    | c :: cs₀, hlen =>
      have hlen₀ : cs₀.length ≤ n := by
        simpa using Nat.lt_succ_iff.mp (Nat.lt_of_lt_of_le (by simp) hlen)
      rw [scanLoop] at hs
      rw [wellIndentedFrom] at hw
      by_cases h1 : c = '#'
      · rw [if_pos h1] at hs hw
        exact ih (skipToEol cs₀) (le_trans (skipToEol_length cs₀) hlen₀)
          k toks stack' toks' hw hs
      · rw [if_neg h1] at hs hw
        by_cases h2 : c = ' '
        · rw [if_pos h2] at hs hw
          exact ih cs₀ hlen₀ k toks stack' toks' hw hs
        · rw [if_neg h2] at hs hw
          by_cases h3 : c = '\n'
          · rw [if_pos h3] at hs hw
            rw [Bool.and_eq_true, Bool.and_eq_true] at hw
            obtain ⟨⟨hw1, hw2⟩, hw3⟩ := hw
            rw [decide_eq_true_eq] at hw1 hw2
            obtain ⟨toks₂, heq, hbal⟩ :=
              handleIndent_ladder (afterNewline cs₀).1 k (toks ++ [TokT.NEWLINE])
                hw1 (by omega)
            rw [heq] at hs
            dsimp only at hs
            have hw3' : wellIndentedFrom (4 * ((afterNewline cs₀).1 / 4))
                (afterNewline cs₀).2 = true := by
              have h44 : 4 * ((afterNewline cs₀).1 / 4) = (afterNewline cs₀).1 := by
                omega
              rw [h44]
              exact hw3
            obtain ⟨k', hk', hb⟩ :=
              ih (afterNewline cs₀).2 (le_trans (afterNewline_length cs₀) hlen₀)
                ((afterNewline cs₀).1 / 4) toks₂ stack' toks' hw3' hs
            refine ⟨k', hk', ?_⟩
            rw [hb, hbal, indentBalance_append_newline]
            omega
          · rw [if_neg h3] at hs hw
            by_cases h4 : isNameStart c = true
            · rw [if_pos h4] at hs hw
              have hcount : indentBalance (toks ++ [TokT.NAME]) = indentBalance toks := by
                simp [indentBalance, List.count_append]
              obtain ⟨k', hk', hb⟩ :=
                ih (skipName cs₀) (le_trans (skipName_length cs₀) hlen₀)
                  k (toks ++ [TokT.NAME]) stack' toks' hw hs
              refine ⟨k', hk', ?_⟩
              rw [hb, hcount]
            · rw [if_neg h4] at hw
              exact absurd hw (by simp)

/-- C7 counterexample: the source `"x\n        y"` tokenizes without
error; the two-level indentation jump emits `(8 − 0)/4 = 2` INDENT
tokens but pushes a single indent-stack entry, so the EOF unravelling
emits only one DEDENT: 2 INDENTs against 1 DEDENT. -/
theorem C7_counterexample :
    scanEverything "x\n        y" =
      .ok [TokT.NAME, .NEWLINE, .INDENT, .INDENT, .NAME, .DEDENT, .ENDMARKER] ∧
    List.count TokT.INDENT
        [TokT.NAME, .NEWLINE, .INDENT, .INDENT, .NAME, .DEDENT, .ENDMARKER] = 2 ∧
    List.count TokT.DEDENT
        [TokT.NAME, .NEWLINE, .INDENT, .INDENT, .NAME, .DEDENT, .ENDMARKER] = 1 ∧
    (2 : Nat) ≠ 1 := by
  refine ⟨?_, by decide, by decide, by decide⟩
  simp [scanEverything, scanLoop, afterNewline, countSpaces, blankLoop, skipToEol,
    skipName, isNameStart, handleIndent, unravel, ladder, String.toList]

/-- C7 (amended): for every well-indented source — every logical line's
indentation a multiple of four, increasing by at most one level (four
spaces) at a time — the token list produced by `scanEverything`
contains exactly as many INDENT as DEDENT tokens (counting the
synthetic DEDENTs emitted at end of file).  An indentation increase of
k ≥ 2 levels at once emits `(count − top)/4` INDENT tokens but pushes
only one stack entry, so its EOF unravelling emits a single DEDENT and
the balance fails (see the counterexample). -/
theorem C7_indent_dedent_balance (source : String) (toks : List TokT)
    (hw : wellIndented source = true)
    (hs : scanEverything source = .ok toks) :
    toks.count .INDENT = toks.count .DEDENT := by
  unfold scanEverything at hs
  rcases hrun : scanLoop source.toList [0] [] with e | ⟨stack, toksm⟩
  · rw [hrun] at hs
    cases hs
  · rw [hrun] at hs
    dsimp only at hs
    have h0 : ([0] : List Nat) = ladder 0 := rfl
    rw [h0] at hrun
    have hw' : wellIndentedFrom (4 * 0) source.toList = true := hw
    obtain ⟨k', hk', hb⟩ :=
      scanLoop_balance source.toList.length source.toList le_rfl 0 [] stack toksm hw' hrun
    subst hk'
    cases hs
    rw [unravel_ladder]
    simp [indentBalance] at hb
    simp [List.count_append, List.count_replicate]
    omega

/-- Witness for C7 on the well-indented source `"a\n    b\nc"`. -/
theorem C7_indent_dedent_balance_witness :
    wellIndented "a\n    b\nc" = true ∧
    scanEverything "a\n    b\nc" =
      .ok [TokT.NAME, .NEWLINE, .INDENT, .NAME, .NEWLINE, .DEDENT, .NAME, .ENDMARKER] ∧
    List.count TokT.INDENT
        [TokT.NAME, .NEWLINE, .INDENT, .NAME, .NEWLINE, .DEDENT, .NAME, .ENDMARKER] =
      List.count TokT.DEDENT
        [TokT.NAME, .NEWLINE, .INDENT, .NAME, .NEWLINE, .DEDENT, .NAME, .ENDMARKER] := by
  have hw : wellIndented "a\n    b\nc" = true := by
    simp [wellIndented, wellIndentedFrom, afterNewline, countSpaces, blankLoop,
      skipToEol, skipName, isNameStart, String.toList]
  have hs : scanEverything "a\n    b\nc" =
      .ok [TokT.NAME, .NEWLINE, .INDENT, .NAME, .NEWLINE, .DEDENT, .NAME, .ENDMARKER] := by
    simp [scanEverything, scanLoop, afterNewline, countSpaces, blankLoop, skipToEol,
      skipName, isNameStart, handleIndent, unravel, ladder, String.toList]
  refine ⟨hw, hs, ?_⟩
  have := C7_indent_dedent_balance "a\n    b\nc" _ hw hs
  simpa using this

end PySlang
